import Mathlib

/-!
Shallow embedding of the artificial-life simulation core (`src/main.cpp`):
the cell/bot data model, the bot virtual machine (`ProcessBot`), the
sequential tick (`UpdateWorld` with the carry-over pass and per-index
processing), the worker-count computation, and world initialization
(`InitWorld`).  Machine integers are modeled as `Int`/`Nat`; the C++
truncating division on `int` is `Int.tdiv`; the pseudo-random generator is
an abstract stream of byte draws.
-/

namespace LifeSim

/-- Constant `WORLD_W` from the source. -/
def WORLD_W : Nat := 256

/-- Constant `WORLD_H` from the source. -/
def WORLD_H : Nat := 128

/-- Constant `GENOME_SIZE` from the source. -/
def GENOME_SIZE : Nat := 64

/-- Total number of cells, `WORLD_W * WORLD_H`. -/
def CELLS : Nat := WORLD_W * WORLD_H

/-- RGBA color, as raylib's `Color`. -/
structure Color where
  r : Nat
  g : Nat
  b : Nat
  a : Nat
deriving DecidableEq

/-- Constant `COLOR_BOT` from the source (default bot color, green). -/
def COLOR_BOT : Color := ⟨0, 255, 0, 255⟩

/-- The green marker written by opcode 20 (`{0, 255, 0, 255}`). -/
def COLOR_GREEN : Color := ⟨0, 255, 0, 255⟩

/-- The red marker written by opcode 30 (`{150, 0, 0, 255}`). -/
def COLOR_RED : Color := ⟨150, 0, 0, 255⟩

/-- The C++ `struct Bot`: alive flag, 64-byte genome, instruction pointer,
direction, signed energy, color.  `ip` is always kept in `[0,64)` and
`dir` in `[0,8)` by the program, so they are modeled as `Fin`. -/
structure Bot where
  alive : Bool
  genome : Fin 64 → Nat
  ip : Fin 64
  dir : Fin 8
  energy : Int
  color : Color

/-- The C++ `struct Cell`: a bot plus an organic counter (an `int`). -/
structure Cell where
  bot : Bot
  organic : Int

/-- A grid buffer, indexed by linear cell index. -/
abbrev Grid := Nat → Cell

/-- Write the bot field of cell `i` (models `writeGrid[i].bot = b`). -/
def updBot (w : Grid) (i : Nat) (b : Bot) : Grid :=
  fun j => if j = i then { w i with bot := b } else w j

/-- Write the organic field of cell `i` (models `writeGrid[i].organic = v`). -/
def updOrganic (w : Grid) (i : Nat) (v : Int) : Grid :=
  fun j => if j = i then { w i with organic := v } else w j

/-- Write a whole cell. -/
def updCell (g : Grid) (i : Nat) (c : Cell) : Grid :=
  fun j => if j = i then c else g j

/-- Table `DIR_X` from the source: 0, 1, 1, 1, 0, -1, -1, -1. -/
def DIR_X : Fin 8 → Int
  | 0 => 0 | 1 => 1 | 2 => 1 | 3 => 1 | 4 => 0 | 5 => -1 | 6 => -1 | 7 => -1

/-- Table `DIR_Y` from the source: -1, -1, 0, 1, 1, 1, 0, -1. -/
def DIR_Y : Fin 8 → Int
  | 0 => -1 | 1 => -1 | 2 => 0 | 3 => 1 | 4 => 1 | 5 => 1 | 6 => 0 | 7 => -1

/-- Advance of `ip` modulo `GENOME_SIZE`, that is `(ip + k) % 64`. -/
def ipAdd (ip : Fin 64) (k : Nat) : Fin 64 :=
  ⟨(ip.val + k) % 64, Nat.mod_lt _ (by omega)⟩

/-- Turn of `dir` modulo 8, that is `(dir + k) % 8`. -/
def dirAdd (d : Fin 8) (k : Nat) : Fin 8 :=
  ⟨(d.val + k) % 8, Nat.mod_lt _ (by omega)⟩

/-- Toroidal neighbor index, from the opcode-40 branch:
`nx = (idx % W + dx + W) % W`, `ny = (idx / W + dy + H) % H`,
`nIdx = ny * W + nx` (all C++ `int` arithmetic; operands are small and
non-negative where `%` is taken, so `Int.emod` agrees with C++ `%`). -/
def neighborIdx (idx : Nat) (d : Fin 8) : Nat :=
  let nx : Int := (((idx % WORLD_W : Nat) : Int) + DIR_X d + (WORLD_W : Int)) % (WORLD_W : Int)
  let ny : Int := (((idx / WORLD_W : Nat) : Int) + DIR_Y d + (WORLD_H : Int)) % (WORLD_H : Int)
  (ny * (WORLD_W : Int) + nx).toNat

/-- One fetch-decode-execute step of the bot VM: the body of the
`while` loop in `ProcessBot`.  The mutable `nextBot` of the C++ code is
`(w idx).bot`; the opcode is fetched from the read-side genome at the
write-side instruction pointer, the pointer is advanced, and the opcode
is interpreted.  Returns the updated write grid together with the
`turnEnded` flag. -/
def execCmd (idx : Nat) (rg w : Grid) : Grid × Bool :=
  let nb0 := (w idx).bot
  let cmd := (rg idx).bot.genome nb0.ip
  let nb1 := { nb0 with ip := ipAdd nb0.ip 1 }
  if cmd < 8 then
    -- 0-7: relative jump, ip = (ip + cmd) % 64
    (updBot w idx { nb1 with ip := ipAdd nb1.ip cmd }, false)
  else if 10 ≤ cmd ∧ cmd ≤ 15 then
    -- 10-15: turn, dir = (dir + (cmd - 10)) % 8
    (updBot w idx { nb1 with dir := dirAdd nb1.dir (cmd - 10) }, false)
  else if cmd = 20 then
    -- 20: photosynthesis
    (updBot w idx { nb1 with energy := nb1.energy + 5, color := COLOR_GREEN }, true)
  else if cmd = 30 then
    -- 30: eat organic at own cell (the whole effect is guarded by organic > 0)
    if 0 < (rg idx).organic then
      let eat : Int := min (rg idx).organic 20
      let w1 := updBot w idx { nb1 with energy := nb1.energy + eat, color := COLOR_RED }
      (updOrganic w1 idx ((w1 idx).organic - eat), true)
    else
      (updBot w idx nb1, true)
  else if cmd = 40 then
    -- 40: move / attack toward dir
    let nIdx := neighborIdx idx nb1.dir
    if (rg nIdx).bot.alive then
      -- attack: gain half the neighbor's energy (C++ truncating division)
      (updBot w idx { nb1 with energy := nb1.energy + Int.tdiv (rg nIdx).bot.energy 2 }, true)
    else if (w nIdx).bot.alive then
      -- destination already taken in the write grid: nothing but the turn end
      (updBot w idx nb1, true)
    else
      -- relocate: writeGrid[nIdx].bot = nextBot; writeGrid[idx].bot.alive = false;
      -- nextBot.energy -= 2  (nextBot aliases writeGrid[idx].bot)
      let w1 := updBot w nIdx nb1
      let w2 := updBot w1 idx { nb1 with alive := false }
      (updBot w2 idx { nb1 with alive := false, energy := nb1.energy - 2 }, true)
  else
    -- any other opcode: only the already-performed ip advance
    (updBot w idx nb1, false)

/-- The VM instruction loop with its remaining budget as fuel
(`while (commandsExecuted < 10 && !turnEnded)`); returns the write grid
and the number of commands executed. -/
def vmLoop (idx : Nat) (rg : Grid) : Nat → Grid → Grid × Nat
  | 0, w => (w, 0)
  | fuel + 1, w =>
    let r := execCmd idx rg w
    if r.2 then (r.1, 1)
    else
      let s := vmLoop idx rg fuel r.1
      (s.1, s.2 + 1)

/-- The function `ProcessBot(idx, readGrid, writeGrid)`: death handling when
`energy <= 0`, otherwise copy the bot to the write side, run the VM loop
with budget 10, and deduct the 1-energy existence cost from
`writeGrid[idx].bot` (which the C++ `nextBot` reference still aliases,
even after a relocation). -/
def ProcessBot (idx : Nat) (rg w : Grid) : Grid :=
  if (rg idx).bot.energy ≤ 0 then
    let w1 := updOrganic w idx ((w idx).organic + 50)
    updBot w1 idx { (w1 idx).bot with alive := false }
  else
    let w1 := updBot w idx (rg idx).bot
    let w2 := (vmLoop idx rg 10 w1).1
    updBot w2 idx { (w2 idx).bot with energy := (w2 idx).bot.energy - 1 }

/-- Stage 0 of `UpdateWorld`: for every index, clear the write-side alive
flag and copy the organic value from the current grid. -/
def clearPass (cur nxt : Grid) : Grid :=
  fun i => { bot := { (nxt i).bot with alive := false }, organic := (cur i).organic }

/-- The per-index body of `workerFunc`: process a living bot, otherwise
apply random organic regrowth (`+10`), whose random draw is modeled by
the oracle `regrow`. -/
def stepCell (regrow : Nat → Bool) (cur : Grid) (w : Grid) (i : Nat) : Grid :=
  if (cur i).bot.alive then ProcessBot i cur w
  else if regrow i then updOrganic w i ((w i).organic + 10) else w

/-- One tick of `UpdateWorld`, with all indices processed sequentially in
increasing order: the carry-over pass followed by `stepCell` at every
index.  The result is the new current grid (after the buffer swap). -/
def tick (regrow : Nat → Bool) (cur nxt : Grid) : Grid :=
  (List.range CELLS).foldl (stepCell regrow cur) (clearPass cur nxt)

/-- Worker-count computation of `UpdateWorld`:
`threadsCount = hardware_concurrency(); if (threadsCount == 0) threadsCount = 4;`. -/
def threadsCount (hw : Nat) : Nat :=
  if hw = 0 then 4 else hw

/-- Number of living bots among the cells of a grid. -/
def countAlive (g : Grid) : Nat :=
  ∑ i ∈ Finset.range CELLS, (if (g i).bot.alive then 1 else 0)

/-- Default-constructed `Bot` (the vector zero-fills: genome all
zero, `alive = false`, `ip = 0`, `dir = 0`, `energy = 0`, color
`COLOR_BOT`). -/
def defaultBot : Bot :=
  { alive := false, genome := fun _ => 0, ip := 0, dir := 0, energy := 0, color := COLOR_BOT }

/-- Default-constructed `Cell`. -/
def defaultCell : Cell := { bot := defaultBot, organic := 0 }

/-- The freshly constructed grid buffers. -/
def defaultGrid : Grid := fun _ => defaultCell

/-- The spawn test of `InitWorld`: `byteDist(rng) > 200`. -/
def spawnByteOk (b : Nat) : Bool := 200 < b

/-- The body of the `InitWorld` loop for one cell, reading the byte
draws of the abstract random stream `rnd` starting at position `p`:
organic draw at `p`, spawn draw at `p+1`, then (when a bot is placed)
direction draw at `p+2` and genome draws at `p+3 .. p+66`. -/
def initCell (rnd : Nat → Nat) (p : Nat) (c : Cell) : Cell :=
  let org : Int := ((rnd p % 50 : Nat) : Int)
  if spawnByteOk (rnd (p + 1)) then
    { bot := { alive := true
             , genome := fun k => rnd (p + 3 + k.val)
             , ip := c.bot.ip
             , dir := ⟨rnd (p + 2) % 8, Nat.mod_lt _ (by omega)⟩
             , energy := 500
             , color := c.bot.color }
    , organic := org }
  else
    { c with organic := org }

/-- Number of random draws the `InitWorld` loop body consumes at stream
position `p`: 2 without a spawn, 67 with one. -/
def drawsUsed (rnd : Nat → Nat) (p : Nat) : Nat :=
  if spawnByteOk (rnd (p + 1)) then 67 else 2

/-- The `InitWorld` loop over `count` remaining cells, starting at cell
index `i` and stream position `p`. -/
def initAux (rnd : Nat → Nat) : Nat → Nat → Nat → Grid → Grid
  | 0, _, _, g => g
  | count + 1, i, p, g =>
    initAux rnd count (i + 1) (p + drawsUsed rnd p) (updCell g i (initCell rnd p (g i)))

/-- The function `InitWorld()`, over an abstract stream of byte draws. -/
def InitWorld (rnd : Nat → Nat) : Grid :=
  initAux rnd CELLS 0 0 defaultGrid

/-- Stream position at which the `InitWorld` loop body for the `k`-th
cell after the current one starts, given the current position `p`. -/
def posFrom (rnd : Nat → Nat) : Nat → Nat → Nat
  | p, 0 => p
  | p, k + 1 => posFrom rnd (p + drawsUsed rnd p) k

/-! ### Basic update lemmas -/

theorem updBot_ne {w : Grid} {i j : Nat} {b : Bot} (h : j ≠ i) : updBot w i b j = w j := by
  simp [updBot, h]

theorem updBot_self (w : Grid) (i : Nat) (b : Bot) :
    updBot w i b i = { w i with bot := b } := by
  simp [updBot]

theorem updBot_organic (w : Grid) (i : Nat) (b : Bot) (j : Nat) :
    (updBot w i b j).organic = (w j).organic := by
  by_cases h : j = i <;> simp [updBot, h]

theorem updBot_updBot (w : Grid) (i : Nat) (b b2 : Bot) :
    updBot (updBot w i b) i b2 = updBot w i b2 := by
  funext j
  by_cases h : j = i <;> simp [updBot, h]

theorem updOrganic_ne {w : Grid} {i j : Nat} {v : Int} (h : j ≠ i) :
    updOrganic w i v j = w j := by
  simp [updOrganic, h]

theorem updOrganic_organic_self (w : Grid) (i : Nat) (v : Int) :
    (updOrganic w i v i).organic = v := by
  simp [updOrganic]

theorem updOrganic_organic_ne {i j : Nat} (w : Grid) (v : Int) (h : j ≠ i) :
    (updOrganic w i v j).organic = (w j).organic := by
  simp [updOrganic, h]

theorem updOrganic_bot (w : Grid) (i : Nat) (v : Int) (j : Nat) :
    (updOrganic w i v j).bot = (w j).bot := by
  by_cases h : j = i <;> simp [updOrganic, h]

/-! ### The neighbor index is a distinct in-range cell -/

theorem neighborIdx_lt (idx : Nat) (d : Fin 8) : neighborIdx idx d < CELLS := by
  fin_cases d <;>
    simp [neighborIdx, DIR_X, DIR_Y, WORLD_W, WORLD_H, CELLS] <;> omega

theorem neighborIdx_ne (idx : Nat) (d : Fin 8) : neighborIdx idx d ≠ idx := by
  fin_cases d <;>
    simp [neighborIdx, DIR_X, DIR_Y, WORLD_W, WORLD_H, CELLS] <;> omega

/-! ### Organic effects of one VM step -/

theorem execCmd_organic_ne {idx j : Nat} (rg w : Grid) (hj : j ≠ idx) :
    ((execCmd idx rg w).1 j).organic = (w j).organic := by
  simp only [execCmd]
  split_ifs <;>
    simp [updBot_organic, updOrganic_organic_ne _ _ hj]

theorem execCmd_organic_idx (idx : Nat) (rg w : Grid) :
    ((execCmd idx rg w).1 idx).organic = (w idx).organic ∨
      ((execCmd idx rg w).2 = true ∧ 0 < (rg idx).organic ∧
        ((execCmd idx rg w).1 idx).organic = (w idx).organic - min ((rg idx).organic) 20) := by
  simp only [execCmd]
  split_ifs <;>
    (try (left; simp [updBot_organic, updOrganic_organic_self]; done)) <;>
    (right; refine ⟨rfl, ?_, ?_⟩
     · assumption
     · simp [updBot_organic, updOrganic_organic_self])

/-! ### Cells holding a living bot in the read grid are never written by other indices -/

/-- A VM step writes nothing into a cell that holds a living bot in the
read grid (other than the bot's own cell): every write lands at `idx` or
at a relocation target that is not alive in the read grid. -/
theorem execCmd_preserve_alive {idx t : Nat} {rg : Grid} (w : Grid) (ht : t ≠ idx)
    (halive : (rg t).bot.alive = true) : (execCmd idx rg w).1 t = w t := by
  have hupd : ∀ (w2 : Grid) (b : Bot), updBot w2 idx b t = w2 t := fun w2 b => updBot_ne ht
  simp only [execCmd]
  split_ifs <;>
    first
      | (simp [hupd, updOrganic_ne ht]; done)
      | (rename_i hra hwa
         dsimp only
         rw [hupd, hupd]
         exact updBot_ne fun hEq => by rw [hEq] at halive; exact hra halive)

theorem vmLoop_preserve_alive {idx t : Nat} {rg : Grid} (ht : t ≠ idx)
    (halive : (rg t).bot.alive = true) :
    ∀ fuel w, (vmLoop idx rg fuel w).1 t = w t := by
  intro fuel
  induction fuel with
  | zero => intro w; simp [vmLoop]
  | succ n ih =>
    intro w
    simp only [vmLoop]
    split
    · exact execCmd_preserve_alive w ht halive
    · rw [ih]; exact execCmd_preserve_alive w ht halive

theorem ProcessBot_preserve_alive {idx t : Nat} {rg : Grid} (w : Grid) (ht : t ≠ idx)
    (halive : (rg t).bot.alive = true) : ProcessBot idx rg w t = w t := by
  simp only [ProcessBot]
  split
  · rw [updBot_ne ht, updOrganic_ne ht]
  · rw [updBot_ne ht, vmLoop_preserve_alive ht halive, updBot_ne ht]

theorem stepCell_preserve_alive {t j : Nat} {cur : Grid} (regrow : Nat → Bool) (w : Grid)
    (ht : t ≠ j) (halive : (cur t).bot.alive = true) :
    stepCell regrow cur w j t = w t := by
  simp only [stepCell]
  split
  · exact ProcessBot_preserve_alive w ht halive
  · split
    · exact updOrganic_ne ht
    · rfl

/-! ### Organic effects of the VM loop, `ProcessBot` and `stepCell`; fold helpers -/

theorem vmLoop_organic_ne {idx j : Nat} (rg : Grid) (hj : j ≠ idx) :
    ∀ fuel w, ((vmLoop idx rg fuel w).1 j).organic = (w j).organic := by
  intro fuel
  induction fuel with
  | zero => intro w; simp [vmLoop]
  | succ n ih =>
    intro w
    simp only [vmLoop]
    split
    · exact execCmd_organic_ne rg w hj
    · rw [ih]; exact execCmd_organic_ne rg w hj

theorem vmLoop_organic_idx (idx : Nat) (rg : Grid) :
    ∀ fuel w, ((vmLoop idx rg fuel w).1 idx).organic = (w idx).organic ∨
      (0 < (rg idx).organic ∧
        ((vmLoop idx rg fuel w).1 idx).organic = (w idx).organic - min ((rg idx).organic) 20) := by
  intro fuel
  induction fuel with
  | zero => intro w; left; simp [vmLoop]
  | succ n ih =>
    intro w
    simp only [vmLoop]
    split
    · rcases execCmd_organic_idx idx rg w with h | ⟨_, hpos, h⟩
      · left; exact h
      · right; exact ⟨hpos, h⟩
    · rename_i hne
      have heq : ((execCmd idx rg w).1 idx).organic = (w idx).organic := by
        rcases execCmd_organic_idx idx rg w with h | ⟨hend, _, _⟩
        · exact h
        · exact absurd hend hne
      rcases ih ((execCmd idx rg w).1) with h | ⟨hpos, h⟩
      · left; rw [h, heq]
      · right; exact ⟨hpos, by rw [h, heq]⟩

theorem ProcessBot_organic_ne {idx t : Nat} (rg w : Grid) (ht : t ≠ idx) :
    (ProcessBot idx rg w t).organic = (w t).organic := by
  simp only [ProcessBot]
  split
  · rw [updBot_organic, updOrganic_organic_ne _ _ ht]
  · rw [updBot_organic, vmLoop_organic_ne rg ht, updBot_organic]

theorem ProcessBot_dead {idx : Nat} {rg : Grid} (w : Grid) (he : (rg idx).bot.energy ≤ 0) :
    (ProcessBot idx rg w idx).bot.alive = false ∧
      (ProcessBot idx rg w idx).organic = (w idx).organic + 50 := by
  simp [ProcessBot, he, updBot, updOrganic]

theorem stepCell_organic_ne {t j : Nat} (regrow : Nat → Bool) (cur w : Grid) (ht : t ≠ j) :
    (stepCell regrow cur w j t).organic = (w t).organic := by
  simp only [stepCell]
  split
  · exact ProcessBot_organic_ne cur w ht
  · split
    · exact updOrganic_organic_ne _ _ ht
    · rfl

theorem stepCell_organic_nonneg (regrow : Nat → Bool) (cur w : Grid) (i : Nat)
    (hw : (w i).organic = (cur i).organic) (h0 : 0 ≤ (cur i).organic) :
    0 ≤ (stepCell regrow cur w i i).organic := by
  have hmin : min ((cur i).organic) 20 ≤ (cur i).organic := min_le_left _ _
  simp only [stepCell]
  split
  · -- living bot: ProcessBot
    simp only [ProcessBot]
    split
    · -- death: +50
      rw [updBot_organic, updOrganic_organic_self]
      omega
    · -- VM path
      rw [updBot_organic]
      rcases vmLoop_organic_idx i cur 10 (updBot w i (cur i).bot) with h | ⟨hpos, h⟩ <;>
        rw [h, updBot_organic, hw] <;> omega
  · split
    · rw [updOrganic_organic_self]; omega
    · omega

/-! fold helpers -/

theorem foldl_stepCell_organic (regrow : Nat → Bool) (cur : Grid) (l : List Nat) (i : Nat)
    (hi : i ∉ l) : ∀ w, ((l.foldl (stepCell regrow cur) w) i).organic = (w i).organic := by
  induction l with
  | nil => intro w; rfl
  | cons a l ih =>
    intro w
    simp only [List.foldl_cons]
    rw [ih (fun h => hi (List.mem_cons_of_mem a h))]
    exact stepCell_organic_ne regrow cur w (fun h => hi (h ▸ List.mem_cons_self a l))

theorem foldl_stepCell_alive_cell {t : Nat} {cur : Grid} (regrow : Nat → Bool)
    (halive : (cur t).bot.alive = true) (l : List Nat) (hl : t ∉ l) :
    ∀ w, (l.foldl (stepCell regrow cur) w) t = w t := by
  induction l with
  | nil => intro w; rfl
  | cons a l ih =>
    intro w
    simp only [List.foldl_cons]
    rw [ih (fun h => hl (List.mem_cons_of_mem a h))]
    exact stepCell_preserve_alive regrow w (fun h => hl (h ▸ List.mem_cons_self a l)) halive

theorem range_split {i n : Nat} (h : i < n) :
    List.range n = List.range i ++ i :: List.range' (i + 1) (n - i - 1) := by
  have hr : List.range' i (n - i) = i :: List.range' (i + 1) (n - i - 1) := by
    have h3 : n - i = (n - i - 1) + 1 := by omega
    rw [h3]
    rfl
  have h2 := List.range'_append 0 i (n - i) 1
  simp only [Nat.zero_add, Nat.one_mul] at h2
  have h4 : n - i + i = n := by omega
  rw [h4] at h2
  rw [List.range_eq_range' n, ← h2, ← List.range_eq_range' i, hr]

theorem not_mem_range_self_left {i : Nat} : i ∉ List.range i := by
  simp [List.mem_range]

theorem not_mem_range_tail {i k : Nat} : i ∉ List.range' (i + 1) k := by
  intro h
  rw [List.mem_range'] at h
  omega

/-! ### Claims C2 and C5 -/

/-- C2: for every cell whose current-grid bot is alive with energy at most 0
at the start of its processing, after the tick the bot at that index in the
next grid is not alive, and that index's next-grid organic value equals its
carried-over (current) organic value plus exactly 50. -/
theorem claim_C2 (regrow : Nat → Bool) (cur nxt : Grid) (i : Nat)
    (hi : i < CELLS) (halive : (cur i).bot.alive = true) (he : (cur i).bot.energy ≤ 0) :
    (tick regrow cur nxt i).bot.alive = false ∧
      (tick regrow cur nxt i).organic = (cur i).organic + 50 := by
  unfold tick
  rw [range_split hi, List.foldl_append, List.foldl_cons]
  have hpre : (List.range i).foldl (stepCell regrow cur) (clearPass cur nxt) i
      = clearPass cur nxt i :=
    foldl_stepCell_alive_cell regrow halive _ not_mem_range_self_left _
  have hstep : stepCell regrow cur ((List.range i).foldl (stepCell regrow cur) (clearPass cur nxt)) i
      = ProcessBot i cur ((List.range i).foldl (stepCell regrow cur) (clearPass cur nxt)) := by
    simp [stepCell, halive]
  rw [foldl_stepCell_alive_cell regrow halive _ not_mem_range_tail _, hstep]
  have hd := ProcessBot_dead
    ((List.range i).foldl (stepCell regrow cur) (clearPass cur nxt)) he
  refine ⟨hd.1, ?_⟩
  rw [hd.2, hpre]
  rfl

/-- C5: for every tick starting from a state in which every cell's
current-grid organic value is non-negative, every cell's next-grid organic
value after the tick is non-negative. -/
theorem claim_C5 (regrow : Nat → Bool) (cur nxt : Grid)
    (h0 : ∀ i, i < CELLS → 0 ≤ (cur i).organic) :
    ∀ i, i < CELLS → 0 ≤ (tick regrow cur nxt i).organic := by
  intro i hi
  unfold tick
  rw [range_split hi, List.foldl_append, List.foldl_cons]
  have hpre : (((List.range i).foldl (stepCell regrow cur) (clearPass cur nxt)) i).organic
      = (cur i).organic := by
    rw [foldl_stepCell_organic regrow cur _ i not_mem_range_self_left]
    rfl
  rw [foldl_stepCell_organic regrow cur _ i not_mem_range_tail]
  exact stepCell_organic_nonneg regrow cur _ i hpre (h0 i hi)

/-- A living bot with zero energy (test input for C2). -/
def starvedBot : Bot :=
  { alive := true, genome := fun _ => 0, ip := 0, dir := 0, energy := 0, color := COLOR_BOT }

def curC2 : Grid := fun i => if i = 0 then { bot := starvedBot, organic := 7 } else defaultCell

theorem claim_C2_witness :
    (tick (fun _ => false) curC2 defaultGrid 0).bot.alive = false ∧
      (tick (fun _ => false) curC2 defaultGrid 0).organic = 57 :=
  claim_C2 (fun _ => false) curC2 defaultGrid 0 (by decide) rfl (by decide)

theorem claim_C5_witness : 0 ≤ (tick (fun _ => false) curC2 defaultGrid 3).organic :=
  claim_C5 (fun _ => false) curC2 defaultGrid
    (fun i _ => by by_cases h : i = 0 <;> simp [curC2, defaultCell, h]) 3 (by decide)

/-! ### Claims C1, C3, C7, C10 -/
/-- C3: a bot that executes opcode 40 toward a neighbor cell whose
current-grid occupant is a living bot does not relocate: the turn ends, its
energy increases by exactly the floor of half the neighbor's (non-negative)
energy, its alive flag is untouched, and no cell other than its own write
cell - in particular neither the read grid nor the neighbor's write cell -
is modified. -/
theorem claim_C3 (idx : Nat) (rg w : Grid)
    (hcmd : (rg idx).bot.genome ((w idx).bot.ip) = 40)
    (halive : (rg (neighborIdx idx ((w idx).bot.dir))).bot.alive = true)
    (hpos : 0 ≤ (rg (neighborIdx idx ((w idx).bot.dir))).bot.energy) :
    (execCmd idx rg w).2 = true ∧
      ((execCmd idx rg w).1 idx).bot.energy
        = (w idx).bot.energy + (rg (neighborIdx idx ((w idx).bot.dir))).bot.energy / 2 ∧
      ((execCmd idx rg w).1 idx).bot.alive = (w idx).bot.alive ∧
      (execCmd idx rg w).1 (neighborIdx idx ((w idx).bot.dir))
        = w (neighborIdx idx ((w idx).bot.dir)) ∧
      (∀ j, j ≠ idx → (execCmd idx rg w).1 j = w j) := by
  have htd : Int.tdiv (rg (neighborIdx idx ((w idx).bot.dir))).bot.energy 2
      = (rg (neighborIdx idx ((w idx).bot.dir))).bot.energy / 2 :=
    Int.tdiv_eq_ediv hpos (by norm_num)
  simp only [execCmd, hcmd, halive]
  norm_num
  refine ⟨?_, ?_, ?_, ?_⟩
  · simp [updBot_self, htd]
  · simp [updBot_self]
  · exact updBot_ne (neighborIdx_ne idx ((w idx).bot.dir))
  · intro j hj; exact updBot_ne hj

theorem vmLoop_succ_end {idx : Nat} {rg w : Grid} (n : Nat)
    (h : (execCmd idx rg w).2 = true) :
    vmLoop idx rg (n + 1) w = ((execCmd idx rg w).1, 1) := by
  simp [vmLoop, h]

/-- C10: a living bot that executes opcode 40 toward a neighbor with no
living bot in the current grid but whose write-grid cell already holds a
living bot (movement collision) does not relocate: it stays alive at its
own index, pays only the 1-energy existence cost (no movement cost), its
turn ends after that single instruction, and no other cell is written. -/
theorem claim_C10 (idx : Nat) (rg w : Grid)
    (halive : (rg idx).bot.alive = true)
    (he : 0 < (rg idx).bot.energy)
    (hcmd : (rg idx).bot.genome ((rg idx).bot.ip) = 40)
    (hnc : (rg (neighborIdx idx ((rg idx).bot.dir))).bot.alive = false)
    (hwc : (w (neighborIdx idx ((rg idx).bot.dir))).bot.alive = true) :
    (ProcessBot idx rg w idx).bot.alive = true ∧
      (ProcessBot idx rg w idx).bot.energy = (rg idx).bot.energy - 1 ∧
      (ProcessBot idx rg w idx).bot.ip = ipAdd ((rg idx).bot.ip) 1 ∧
      (∀ j, j ≠ idx → ProcessBot idx rg w j = w j) := by
  have hne := neighborIdx_ne idx ((rg idx).bot.dir)
  have hw1 : (updBot w idx (rg idx).bot idx).bot = (rg idx).bot := by
    rw [updBot_self]
  have hexec : execCmd idx rg (updBot w idx (rg idx).bot)
      = (updBot (updBot w idx (rg idx).bot) idx
          { (rg idx).bot with ip := ipAdd ((rg idx).bot.ip) 1 }, true) := by
    simp only [execCmd, hw1, hcmd]
    norm_num
    rw [if_neg (by rw [hnc]; exact Bool.false_ne_true),
      if_pos (by rw [updBot_ne hne]; exact hwc)]
  simp only [ProcessBot, if_neg (by omega : ¬(rg idx).bot.energy ≤ 0),
    vmLoop_succ_end 9 (by rw [hexec]), hexec, updBot_updBot]
  refine ⟨?_, ?_, ?_, ?_⟩
  · simp [updBot_self, halive]
  · simp [updBot_self]
  · simp [updBot_self]
  · intro j hj
    simp [updBot_ne hj]



/-- C7 (amended): a living bot executing opcode 30 with non-negative
current organic at its cell, with eat = min(current organic, 20): its
energy becomes energy + eat - 1 (existence cost included), the write-side
organic at its own index decreases by eat, its color is set to the red
marker exactly when the current organic is positive (it is left unchanged
when the organic is 0), the turn ends after that single instruction, and
no other cell is written. -/
theorem claim_C7_amended (idx : Nat) (rg w : Grid)
    (he : 0 < (rg idx).bot.energy)
    (hcmd : (rg idx).bot.genome ((rg idx).bot.ip) = 30)
    (horg : 0 ≤ (rg idx).organic) :
    (ProcessBot idx rg w idx).bot.energy
        = (rg idx).bot.energy + min ((rg idx).organic) 20 - 1 ∧
      (ProcessBot idx rg w idx).organic = (w idx).organic - min ((rg idx).organic) 20 ∧
      (0 < (rg idx).organic → (ProcessBot idx rg w idx).bot.color = COLOR_RED) ∧
      ((rg idx).organic = 0 → (ProcessBot idx rg w idx).bot.color = (rg idx).bot.color) ∧
      (ProcessBot idx rg w idx).bot.ip = ipAdd ((rg idx).bot.ip) 1 ∧
      (∀ j, j ≠ idx → ProcessBot idx rg w j = w j) := by
  have hw1 : (updBot w idx (rg idx).bot idx).bot = (rg idx).bot := by
    rw [updBot_self]
  rcases (lt_or_eq_of_le horg) with hpos | hzero
  · -- organic > 0: the bot eats
    have hexec : execCmd idx rg (updBot w idx (rg idx).bot)
        = (updOrganic
            (updBot (updBot w idx (rg idx).bot) idx
              { (rg idx).bot with
                ip := ipAdd ((rg idx).bot.ip) 1,
                energy := (rg idx).bot.energy + min ((rg idx).organic) 20,
                color := COLOR_RED }) idx
            ((w idx).organic - min ((rg idx).organic) 20), true) := by
      simp only [execCmd, hw1, hcmd]
      norm_num
      rw [if_pos hpos]
      rw [updBot_updBot, updBot_organic]
    simp only [ProcessBot, if_neg (by omega : ¬(rg idx).bot.energy ≤ 0),
      vmLoop_succ_end 9 (by rw [hexec]), hexec]
    refine ⟨?_, ?_, ?_, ?_, ?_, ?_⟩
    · simp [updBot, updOrganic]
    · simp [updBot, updOrganic]
    · intro _; simp [updBot, updOrganic]
    · intro h0; omega
    · simp [updBot, updOrganic]
    · intro j hj
      simp [updBot_ne hj, updOrganic_ne hj]
  · -- organic = 0: nothing but the ip advance and the turn end
    have hz : (rg idx).organic = 0 := hzero.symm
    have hexec : execCmd idx rg (updBot w idx (rg idx).bot)
        = (updBot (updBot w idx (rg idx).bot) idx
            { (rg idx).bot with ip := ipAdd ((rg idx).bot.ip) 1 }, true) := by
      simp only [execCmd, hw1, hcmd, hz]
      norm_num
    simp only [ProcessBot, if_neg (by omega : ¬(rg idx).bot.energy ≤ 0),
      vmLoop_succ_end 9 (by rw [hexec]), hexec, updBot_updBot]
    refine ⟨?_, ?_, ?_, ?_, ?_, ?_⟩
    · simp [updBot_self, hz]
    · simp [updBot, hz]
    · intro h0; omega
    · intro _; simp [updBot_self]
    · simp [updBot_self]
    · intro j hj
      simp [updBot_ne hj]



/-- A living bot whose genome is all opcode 40, facing east. -/
def moverBot : Bot :=
  { alive := true, genome := fun _ => 40, ip := 0, dir := 2, energy := 500, color := COLOR_BOT }

/-- A current grid holding only `moverBot` at index 0. -/
def moverGrid : Grid := fun i => if i = 0 then { bot := moverBot, organic := 0 } else defaultCell

/-- The write grid after the carry-over pass for `moverGrid`. -/
def moverW : Grid := clearPass moverGrid defaultGrid

/-- C1 (code evaluation at the failing input): a bot at index 0 with
energy 500, facing east, executing opcode 40 toward the empty, available
cell 1, relocates - but the write-grid copy at index 1 keeps the full
energy 500, while the 2-energy movement cost and the 1-energy existence
cost are applied to the abandoned, not-alive copy at index 0 (left with
energy 497).  The claimed destination energy 497 is not what the code
produces. -/
theorem claim_C1_bug :
    ((ProcessBot 0 moverGrid moverW) 1).bot.alive = true ∧
      ((ProcessBot 0 moverGrid moverW) 1).bot.energy = 500 ∧
      ((ProcessBot 0 moverGrid moverW) 0).bot.alive = false ∧
      ((ProcessBot 0 moverGrid moverW) 0).bot.energy = 497 := by decide

/-- A living bot standing in the mover's way. -/
def victimBot : Bot :=
  { alive := true, genome := fun _ => 20, ip := 0, dir := 0, energy := 11, color := COLOR_BOT }

/-- Current grid: attacker (all-40 genome) at 0, victim at 1. -/
def attackGrid : Grid := fun i =>
  if i = 0 then { bot := moverBot, organic := 0 }
  else if i = 1 then { bot := victimBot, organic := 0 } else defaultCell

/-- Write grid for the attack scenario, after carry-over and the copy of
the attacker into its own write cell. -/
def attackW : Grid := updBot (clearPass attackGrid defaultGrid) 0 (attackGrid 0).bot

theorem claim_C3_witness :
    (execCmd 0 attackGrid attackW).2 = true ∧
      ((execCmd 0 attackGrid attackW).1 0).bot.energy = 505 :=
  ⟨(claim_C3 0 attackGrid attackW (by decide) (by decide) (by decide)).1,
    (claim_C3 0 attackGrid attackW (by decide) (by decide) (by decide)).2.1⟩

/-- Write grid with a bot already moved to index 1 (collision scenario). -/
def blockedW : Grid := updBot (clearPass moverGrid defaultGrid) 1 victimBot

theorem claim_C10_witness :
    (ProcessBot 0 moverGrid blockedW 0).bot.alive = true ∧
      (ProcessBot 0 moverGrid blockedW 0).bot.energy = 499 :=
  ⟨(claim_C10 0 moverGrid blockedW (by decide) (by decide) (by decide) (by decide) (by decide)).1,
    (claim_C10 0 moverGrid blockedW (by decide) (by decide) (by decide) (by decide) (by decide)).2.1⟩

/-- A living bot whose genome is all opcode 30. -/
def eaterBot : Bot :=
  { alive := true, genome := fun _ => 30, ip := 0, dir := 0, energy := 500, color := COLOR_BOT }

/-- Current grid: eater at 0 standing on 30 units of organic. -/
def eaterGrid : Grid := fun i => if i = 0 then { bot := eaterBot, organic := 30 } else defaultCell

/-- Write grid for the eating scenario, after the carry-over pass. -/
def eaterW : Grid := clearPass eaterGrid defaultGrid

theorem claim_C7_witness :
    (ProcessBot 0 eaterGrid eaterW 0).bot.energy = 519 ∧
      (ProcessBot 0 eaterGrid eaterW 0).organic = 10 ∧
      (ProcessBot 0 eaterGrid eaterW 0).bot.color = COLOR_RED :=
  ⟨(claim_C7_amended 0 eaterGrid eaterW (by decide) (by decide) (by decide)).1,
    (claim_C7_amended 0 eaterGrid eaterW (by decide) (by decide) (by decide)).2.1,
    (claim_C7_amended 0 eaterGrid eaterW (by decide) (by decide) (by decide)).2.2.1 (by decide)⟩

/-- Current grid: eater at 0 with no organic under it. -/
def eaterGridZ : Grid := fun i => if i = 0 then { bot := eaterBot, organic := 0 } else defaultCell

/-- C7 counterexample to the claim as stated: a bot executing opcode 30
over 0 organic does not get the red color marker (the whole effect,
including the color write, is guarded by `organic > 0`). -/
theorem claim_C7_counterexample :
    (ProcessBot 0 eaterGridZ (clearPass eaterGridZ defaultGrid) 0).bot.color ≠ COLOR_RED := by
  decide

/-! ### Claims C4 and C9 -/
/-- C9 counterexample to the claim as stated: when hardware parallelism
is reported as 0, the scheduler's worker count is 4, not 1. -/
theorem claim_C9_counterexample : threadsCount 0 ≠ 1 := by decide

/-- C9 (amended): when the available hardware parallelism is reported as
zero or unavailable, the tick scheduler falls back to a worker count of
exactly 4; the worker count is always at least 1. -/
theorem claim_C9_amended : threadsCount 0 = 4 ∧ ∀ hw, 1 ≤ threadsCount hw := by
  refine ⟨rfl, fun hw => ?_⟩
  unfold threadsCount
  split <;> omega

theorem vmLoop_count_le (idx : Nat) (rg : Grid) :
    ∀ fuel w, (vmLoop idx rg fuel w).2 ≤ fuel := by
  intro fuel
  induction fuel with
  | zero => intro w; simp [vmLoop]
  | succ n ih =>
    intro w
    simp only [vmLoop]
    split
    · omega
    · have := ih (execCmd idx rg w).1
      omega

theorem execCmd_jump {idx : Nat} {rg : Grid} (w : Grid)
    (h : (rg idx).bot.genome ((w idx).bot.ip) < 8) :
    execCmd idx rg w
      = (updBot w idx
          { (w idx).bot with
            ip := ipAdd (ipAdd ((w idx).bot.ip) 1) ((rg idx).bot.genome ((w idx).bot.ip)) },
        false) := by
  simp only [execCmd]
  rw [if_pos h]

theorem vmLoop_jump {idx : Nat} {rg : Grid} (hg : ∀ k, (rg idx).bot.genome k < 8) :
    ∀ fuel w,
      (vmLoop idx rg fuel w).2 = fuel ∧
        ((vmLoop idx rg fuel w).1 idx).bot.energy = (w idx).bot.energy ∧
        ((vmLoop idx rg fuel w).1 idx).bot.alive = (w idx).bot.alive ∧
        (∀ j, j ≠ idx → (vmLoop idx rg fuel w).1 j = w j) := by
  intro fuel
  induction fuel with
  | zero => intro w; exact ⟨rfl, rfl, rfl, fun _ _ => rfl⟩
  | succ n ih =>
    intro w
    have he := execCmd_jump w (hg ((w idx).bot.ip))
    simp only [vmLoop, he]
    norm_num
    obtain ⟨h1, h2, h3, h4⟩ := ih (updBot w idx
      { (w idx).bot with
        ip := ipAdd (ipAdd ((w idx).bot.ip) 1) ((rg idx).bot.genome ((w idx).bot.ip)) })
    refine ⟨h1, ?_, ?_, ?_⟩
    · rw [h2, updBot_self]
    · rw [h3, updBot_self]
    · intro j hj
      rw [h4 j hj, updBot_ne hj]

/-- C4: the per-tick VM interpretation performs at most 10 fetch-decode
steps for every bot and genome; and for a genome consisting entirely of
jump opcodes (all bytes below 8) on a living bot, no opcode ends the turn,
the VM performs exactly 10 fetch-decode steps, and the bot still pays the
1-energy existence cost afterwards. -/
theorem claim_C4 (idx : Nat) (rg w : Grid) :
    (vmLoop idx rg 10 (updBot w idx (rg idx).bot)).2 ≤ 10 ∧
      ((∀ k, (rg idx).bot.genome k < 8) → 0 < (rg idx).bot.energy →
        ((vmLoop idx rg 10 (updBot w idx (rg idx).bot)).2 = 10 ∧
          (ProcessBot idx rg w idx).bot.energy = (rg idx).bot.energy - 1)) := by
  constructor
  · exact vmLoop_count_le idx rg 10 _
  · intro hg he
    refine ⟨(vmLoop_jump hg 10 _).1, ?_⟩
    have h2 := (vmLoop_jump hg 10 (updBot w idx (rg idx).bot)).2.1
    simp only [ProcessBot, if_neg (by omega : ¬(rg idx).bot.energy ≤ 0)]
    rw [updBot_self]
    simp only [h2, updBot_self]

/-- A living bot whose genome is all zeros (jump opcodes). -/
def jumperBot : Bot :=
  { alive := true, genome := fun _ => 0, ip := 0, dir := 0, energy := 500, color := COLOR_BOT }

/-- Current grid holding only `jumperBot` at index 0. -/
def jumpGrid : Grid := fun i => if i = 0 then { bot := jumperBot, organic := 0 } else defaultCell

theorem claim_C4_witness :
    (vmLoop 0 jumpGrid 10 (updBot (clearPass jumpGrid defaultGrid) 0 (jumpGrid 0).bot)).2 = 10 ∧
      (ProcessBot 0 jumpGrid (clearPass jumpGrid defaultGrid) 0).bot.energy = 499 :=
  ⟨((claim_C4 0 jumpGrid (clearPass jumpGrid defaultGrid)).2 (fun k => by norm_num [jumpGrid, jumperBot]) (by decide)).1,
    ((claim_C4 0 jumpGrid (clearPass jumpGrid defaultGrid)).2 (fun k => by norm_num [jumpGrid, jumperBot]) (by decide)).2⟩

/-! ### Claim C6: the population never grows -/
/-- Indicator of a living bot at index `i`. -/
def aliveInd (g : Grid) (i : Nat) : Nat := if (g i).bot.alive then 1 else 0

theorem countAlive_eq_sum (g : Grid) :
    countAlive g = ∑ i ∈ Finset.range CELLS, aliveInd g i := rfl

theorem aliveInd_le_one (g : Grid) (i : Nat) : aliveInd g i ≤ 1 := by
  unfold aliveInd; split <;> omega

theorem aliveInd_congr {g' g : Grid} {i : Nat} (h : (g' i).bot.alive = (g i).bot.alive) :
    aliveInd g' i = aliveInd g i := by
  unfold aliveInd; rw [h]

theorem count_le_one (g' g : Grid) (j : Nat) (c : Nat)
    (hoff : ∀ i, i ≠ j → (g' i).bot.alive = (g i).bot.alive)
    (hj : aliveInd g' j ≤ aliveInd g j + c) :
    countAlive g' ≤ countAlive g + c := by
  rw [countAlive_eq_sum, countAlive_eq_sum]
  calc ∑ i ∈ Finset.range CELLS, aliveInd g' i
      ≤ ∑ i ∈ Finset.range CELLS, (aliveInd g i + if i = j then c else 0) := by
        apply Finset.sum_le_sum
        intro i _
        by_cases hij : i = j
        · subst hij; simpa using hj
        · rw [aliveInd_congr (hoff i hij)]; simp [hij]
    _ = (∑ i ∈ Finset.range CELLS, aliveInd g i)
        + ∑ i ∈ Finset.range CELLS, (if i = j then c else 0) := Finset.sum_add_distrib
    _ ≤ (∑ i ∈ Finset.range CELLS, aliveInd g i) + c := by
        rw [Finset.sum_ite_eq' (Finset.range CELLS) j (fun _ => c)]
        split <;> omega

theorem count_le_two {g' g : Grid} {j k : Nat} (hj : j < CELLS) (hk : k < CELLS) (hjk : j ≠ k)
    (hoff : ∀ i, i ≠ j → i ≠ k → (g' i).bot.alive = (g i).bot.alive)
    (hsum : aliveInd g' j + aliveInd g' k ≤ aliveInd g j + aliveInd g k) :
    countAlive g' ≤ countAlive g := by
  rw [countAlive_eq_sum, countAlive_eq_sum]
  have hjm : j ∈ Finset.range CELLS := Finset.mem_range.mpr hj
  have hkm : k ∈ (Finset.range CELLS).erase j :=
    Finset.mem_erase.mpr ⟨Ne.symm hjk, Finset.mem_range.mpr hk⟩
  rw [← Finset.add_sum_erase _ (aliveInd g') hjm, ← Finset.add_sum_erase _ (aliveInd g') hkm,
    ← Finset.add_sum_erase _ (aliveInd g) hjm, ← Finset.add_sum_erase _ (aliveInd g) hkm]
  have hrest : ∑ i ∈ ((Finset.range CELLS).erase j).erase k, aliveInd g' i
      = ∑ i ∈ ((Finset.range CELLS).erase j).erase k, aliveInd g i := by
    apply Finset.sum_congr rfl
    intro i hi
    have hik : i ≠ k := (Finset.mem_erase.mp hi).1
    have hij : i ≠ j := (Finset.mem_erase.mp (Finset.mem_erase.mp hi).2).1
    exact aliveInd_congr (hoff i hij hik)
  omega

theorem aliveInd_updBot_self (w : Grid) (i : Nat) (b : Bot) :
    aliveInd (updBot w i b) i = if b.alive then 1 else 0 := by
  unfold aliveInd
  rw [updBot_self]

theorem countAlive_updBot_same {w : Grid} {i : Nat} {b : Bot}
    (hb : b.alive = (w i).bot.alive) : countAlive (updBot w i b) ≤ countAlive w := by
  have hind : aliveInd (updBot w i b) i = aliveInd w i := by
    rw [aliveInd_updBot_self, hb]; rfl
  have h := count_le_one (updBot w i b) w i 0
    (fun t ht => by rw [updBot_ne ht]) (by omega)
  simpa using h

theorem countAlive_updBot_dead {w : Grid} {i : Nat} {b : Bot}
    (hb : b.alive = false) : countAlive (updBot w i b) ≤ countAlive w := by
  have hind : aliveInd (updBot w i b) i = 0 := by
    rw [aliveInd_updBot_self, hb]; rfl
  have h := count_le_one (updBot w i b) w i 0
    (fun t ht => by rw [updBot_ne ht])
    (by have := aliveInd_le_one w i; omega)
  simpa using h

theorem countAlive_updBot_le_succ (w : Grid) (i : Nat) (b : Bot) :
    countAlive (updBot w i b) ≤ countAlive w + 1 := by
  exact count_le_one (updBot w i b) w i 1 (fun t ht => by rw [updBot_ne ht])
    (by have := aliveInd_le_one (updBot w i b) i; omega)

theorem countAlive_updOrganic (w : Grid) (i : Nat) (v : Int) :
    countAlive (updOrganic w i v) = countAlive w := by
  rw [countAlive_eq_sum, countAlive_eq_sum]
  apply Finset.sum_congr rfl
  intro t _
  exact aliveInd_congr (by rw [updOrganic_bot])



theorem countAlive_reloc {w : Grid} {idx nIdx : Nat} {nb1 b3 : Bot}
    (hidx : idx < CELLS) (hn : nIdx < CELLS) (hne : nIdx ≠ idx)
    (hw : (w nIdx).bot.alive = false)
    (hnb : nb1.alive = (w idx).bot.alive) (hb3 : b3.alive = false) :
    countAlive (updBot (updBot w nIdx nb1) idx b3) ≤ countAlive w := by
  apply count_le_two hidx hn (Ne.symm hne)
  · intro i hij hik
    rw [updBot_ne hij, updBot_ne hik]
  · have h1 : aliveInd (updBot (updBot w nIdx nb1) idx b3) idx = 0 := by
      rw [aliveInd_updBot_self, hb3]; rfl
    have h2 : aliveInd (updBot (updBot w nIdx nb1) idx b3) nIdx = aliveInd w idx := by
      have : (updBot (updBot w nIdx nb1) idx b3) nIdx = (updBot w nIdx nb1) nIdx :=
        updBot_ne hne
      unfold aliveInd
      rw [this, updBot_self, hnb]
    have h3 : aliveInd w nIdx = 0 := by
      simp [aliveInd, hw]
    omega

theorem execCmd_count (idx : Nat) (hidx : idx < CELLS) (rg w : Grid) :
    countAlive ((execCmd idx rg w).1) ≤ countAlive w := by
  simp only [execCmd]
  split_ifs
  all_goals dsimp only
  · exact countAlive_updBot_same rfl
  · exact countAlive_updBot_same rfl
  · exact countAlive_updBot_same rfl
  · rw [countAlive_updOrganic]
    exact countAlive_updBot_same rfl
  · exact countAlive_updBot_same rfl
  · exact countAlive_updBot_same rfl
  · exact countAlive_updBot_same rfl
  · rename_i hra hwa
    rw [updBot_updBot]
    exact countAlive_reloc hidx (neighborIdx_lt idx _) (neighborIdx_ne idx _)
      (by simpa using hwa) rfl rfl
  · exact countAlive_updBot_same rfl



theorem vmLoop_count (idx : Nat) (hidx : idx < CELLS) (rg : Grid) :
    ∀ fuel w, countAlive ((vmLoop idx rg fuel w).1) ≤ countAlive w := by
  intro fuel
  induction fuel with
  | zero => intro w; simp [vmLoop]
  | succ n ih =>
    intro w
    simp only [vmLoop]
    split
    · exact execCmd_count idx hidx rg w
    · exact le_trans (ih (execCmd idx rg w).1) (execCmd_count idx hidx rg w)

theorem ProcessBot_count (idx : Nat) (hidx : idx < CELLS) (rg w : Grid) :
    countAlive (ProcessBot idx rg w) ≤ countAlive w + 1 := by
  simp only [ProcessBot]
  split
  · refine le_trans (countAlive_updBot_dead rfl) ?_
    rw [countAlive_updOrganic]
    omega
  · exact le_trans (countAlive_updBot_same rfl)
      (le_trans (vmLoop_count idx hidx rg 10 _) (countAlive_updBot_le_succ w idx _))

theorem stepCell_count (regrow : Nat → Bool) (cur w : Grid) (i : Nat) (hi : i < CELLS) :
    countAlive (stepCell regrow cur w i) ≤ countAlive w + aliveInd cur i := by
  simp only [stepCell]
  split
  · rename_i hc
    have : aliveInd cur i = 1 := by simp [aliveInd, hc]
    rw [this]
    exact ProcessBot_count i hi cur w
  · split
    · rw [countAlive_updOrganic]; omega
    · omega

theorem foldl_stepCell_count (regrow : Nat → Bool) (cur : Grid) :
    ∀ l : List Nat, (∀ j ∈ l, j < CELLS) → ∀ w,
      countAlive (l.foldl (stepCell regrow cur) w)
        ≤ countAlive w + (l.map (aliveInd cur)).sum := by
  intro l
  induction l with
  | nil => intro _ w; simp
  | cons a l ih =>
    intro hl w
    simp only [List.foldl_cons, List.map_cons, List.sum_cons]
    have h1 := ih (fun j hj => hl j (List.mem_cons_of_mem a hj)) (stepCell regrow cur w a)
    have h2 := stepCell_count regrow cur w a (hl a (List.mem_cons_self a l))
    omega

theorem sum_map_range (f : Nat → Nat) : ∀ n, ((List.range n).map f).sum = ∑ i ∈ Finset.range n, f i := by
  intro n
  induction n with
  | zero => simp
  | succ m ih =>
    rw [List.range_succ, List.map_append, List.sum_append, Finset.sum_range_succ, ih]
    simp

theorem countAlive_clearPass (cur nxt : Grid) : countAlive (clearPass cur nxt) = 0 := by
  rw [countAlive_eq_sum]
  apply Finset.sum_eq_zero
  intro i _
  simp [aliveInd, clearPass]

/-- C6: for every sequentially processed tick, the number of cells holding
a living bot in the next grid is at most the number in the current grid:
bots die, stay, or relocate into a write cell with no living bot yet, and
no operation creates a new bot. -/
theorem claim_C6 (regrow : Nat → Bool) (cur nxt : Grid) :
    countAlive (tick regrow cur nxt) ≤ countAlive cur := by
  unfold tick
  have h := foldl_stepCell_count regrow cur (List.range CELLS)
    (fun j hj => List.mem_range.mp hj) (clearPass cur nxt)
  rw [countAlive_clearPass, sum_map_range (aliveInd cur) CELLS, ← countAlive_eq_sum cur] at h
  omega

/-! ### Claim C8: world initialization -/
theorem updCell_ne {g : Grid} {i j : Nat} {c : Cell} (h : j ≠ i) : updCell g i c j = g j := by
  simp [updCell, h]

theorem updCell_self (g : Grid) (i : Nat) (c : Cell) : updCell g i c i = c := by
  simp [updCell]

theorem initAux_lt (rnd : Nat → Nat) :
    ∀ count i p g j, j < i → initAux rnd count i p g j = g j := by
  intro count
  induction count with
  | zero => intro i p g j _; rfl
  | succ c ih =>
    intro i p g j hj
    simp only [initAux]
    rw [ih (i + 1) _ _ j (by omega), updCell_ne (by omega)]

theorem initAux_get (rnd : Nat → Nat) :
    ∀ count k i p g, k < count →
      initAux rnd count i p g (i + k) = initCell rnd (posFrom rnd p k) (g (i + k)) := by
  intro count
  induction count with
  | zero => intro k i p g hk; omega
  | succ c ih =>
    intro k i p g hk
    simp only [initAux]
    cases k with
    | zero =>
      simp only [Nat.add_zero]
      rw [initAux_lt rnd c (i + 1) _ _ i (by omega), updCell_self]
      rfl
    | succ k2 =>
      have harith : i + (k2 + 1) = (i + 1) + k2 := by omega
      rw [harith, ih k2 (i + 1) (p + drawsUsed rnd p) _ (by omega), updCell_ne (by omega)]
      rfl

theorem InitWorld_get (rnd : Nat → Nat) (i : Nat) (hi : i < CELLS) :
    InitWorld rnd i = initCell rnd (posFrom rnd 0 i) defaultCell := by
  unfold InitWorld
  have h := initAux_get rnd CELLS i 0 0 defaultGrid hi
  simpa using h

/-- C8 (amended): during initialization, every cell's organic value is a
pseudo-random value in [0,50); a living bot is placed exactly when the
spawn draw (a byte in [0,256)) exceeds the source's threshold 200, which
succeeds for exactly 55 of the 256 possible byte values; each placed bot
has energy 500 and a direction in [0,8). -/
theorem claim_C8_amended (rnd : Nat → Nat) (i : Nat) (hi : i < CELLS) :
    (0 ≤ (InitWorld rnd i).organic ∧ (InitWorld rnd i).organic < 50) ∧
      ((InitWorld rnd i).bot.alive = spawnByteOk (rnd (posFrom rnd 0 i + 1))) ∧
      ((InitWorld rnd i).bot.alive = true →
        (InitWorld rnd i).bot.energy = 500 ∧ (InitWorld rnd i).bot.dir.val < 8) ∧
      ((Finset.range 256).filter (fun b => spawnByteOk b)).card = 55 := by
  rw [InitWorld_get rnd i hi]
  unfold initCell
  split
  · rename_i hs
    dsimp only
    refine ⟨⟨Int.natCast_nonneg _, ?_⟩, by rw [hs], fun _ => ⟨rfl, ?_⟩, by decide⟩
    · exact_mod_cast Nat.mod_lt (rnd (posFrom rnd 0 i)) (by norm_num)
    · exact Nat.mod_lt _ (by norm_num)
  · rename_i hs
    dsimp only
    refine ⟨⟨Int.natCast_nonneg _, ?_⟩, ?_, ?_, by decide⟩
    · exact_mod_cast Nat.mod_lt (rnd (posFrom rnd 0 i)) (by norm_num)
    · simp only [defaultCell, defaultBot]
      exact ((Bool.not_eq_true _).mp hs).symm
    · intro h
      simp [defaultCell, defaultBot] at h

/-- C8 counterexample to the claim as stated: the spawn test
`byteDist(rng) > 200` succeeds for the 55 values 201..255, not for 56 of
the 256 possible values. -/
theorem claim_C8_counterexample :
    ((Finset.range 256).filter (fun b => spawnByteOk b)).card ≠ 56 := by decide

theorem claim_C8_witness :
    (0 ≤ (InitWorld (fun _ => 255) 0).organic ∧ (InitWorld (fun _ => 255) 0).organic < 50) ∧
      ((InitWorld (fun _ => 255) 0).bot.alive = spawnByteOk 255) ∧
      ((InitWorld (fun _ => 255) 0).bot.alive = true →
        (InitWorld (fun _ => 255) 0).bot.energy = 500
          ∧ (InitWorld (fun _ => 255) 0).bot.dir.val < 8) ∧
      ((Finset.range 256).filter (fun b => spawnByteOk b)).card = 55 :=
  claim_C8_amended (fun _ => 255) 0 (by decide)

end LifeSim
